import Mathlib

/-!
Shallow embedding of the portfolio analytics engine of the
Financial-Tracker repository (src/financial_analyzer.py).

Modelling conventions:
* Prices, amounts and percentages are rationals (ℚ).  The Python code runs
  on numpy/pandas float64 values with `warnings.filterwarnings('ignore')`,
  so a division by zero yields a non-number (inf/nan) that propagates
  through arithmetic instead of raising.  We model a float value as
  `Option ℚ`, `none` standing for such a non-number; the option-valued
  arithmetic below propagates `none` exactly as numpy propagates nan/inf
  (we do not distinguish inf from nan, the program never branches on the
  difference).
* `round(x, 2)` is modelled by `round2` (round to an integer number of
  hundredths); the tie-breaking rule of float rounding differs from the
  rational one only on exact ties, which none of the claims depends on.
* `x ** y` (float power, used only for CAGR) and `sqrt` (used only for
  annualising the standard deviation) are not rational operations; they
  are passed in as explicit function parameters `powf` and `sqrtf`, so
  every definition stays executable.
* The market-data providers (mfapi.in, yfinance) are modelled as oracle
  functions bundled in a `Providers` structure; their catch-all `except`
  blocks make them return `none` / an empty series on any failure, which
  is exactly the interface the analyzer sees.
-/

set_option maxRecDepth 4000

/-- Floor of a rational, written so that the kernel can evaluate it. -/
def ratFloor (q : ℚ) : ℤ := q.num / q.den

/-- Python `round(x, 2)`: round to two decimal places. -/
def round2 (q : ℚ) : ℚ := (ratFloor (q * 100 + 1 / 2) : ℚ) / 100

theorem ratFloor_eq (q : ℚ) : ratFloor q = ⌊q⌋ := Rat.floor_def.symm

theorem round2_eq (q : ℚ) : round2 q = ((round (q * 100) : ℤ) : ℚ) / 100 := by
  rw [round2, ratFloor_eq, round_eq]

/-- Rounding of a possibly-non-number value (`round` of nan is nan). -/
def round2o : Option ℚ → Option ℚ := Option.map round2

/-- Float addition with nan/inf propagation. -/
def pAdd : Option ℚ → Option ℚ → Option ℚ
  | some a, some b => some (a + b)
  | _, _ => none

/-- Float subtraction with nan/inf propagation. -/
def pSub : Option ℚ → Option ℚ → Option ℚ
  | some a, some b => some (a - b)
  | _, _ => none

/-- Float multiplication with nan/inf propagation. -/
def pMul : Option ℚ → Option ℚ → Option ℚ
  | some a, some b => some (a * b)
  | _, _ => none

/-- Float division: division by zero produces a non-number. -/
def pDiv : Option ℚ → Option ℚ → Option ℚ
  | some a, some b => if b = 0 then none else some (a / b)
  | _, _ => none

/-- Sum of a list of float values, as the running `+=` of the source. -/
def pSum (l : List (Option ℚ)) : Option ℚ := l.foldl pAdd (some 0)

/-- One point of a historical price series: a date (a day count, the
source uses pandas timestamps and `timedelta(days=n)`) and a Close/NAV. -/
structure PricePoint where
  date : ℤ
  close : ℚ
deriving DecidableEq

/-- The pandas DataFrame passed around by the analyzer: its (date, Close)
rows plus the `daily_return` column, which exists only after
`calculate_risk_metrics` has assigned it. -/
structure DataFrame where
  rows : List PricePoint
  daily_return : Option (List (Option ℚ))
deriving DecidableEq

/-- Tail of `Series.pct_change() * 100`: percentage change of each value
against the previous one.  A zero previous value gives a signed infinity
in pandas, which downstream mean/std reductions do not skip; we fold it
into the non-number case (`none`), which `valids` then skips.  The two
treatments differ only on series containing a zero price followed by a
further point — inputs that violate the positive-price TimeSeries
invariant under which the volatility and Sharpe claims are stated. -/
def pctGo (prev : ℚ) : List ℚ → List (Option ℚ)
  | [] => []
  | y :: t => (if prev = 0 then none else some ((y - prev) / prev * 100)) :: pctGo y t

/-- Model of `df['Close'].pct_change() * 100`: the first entry is always
nan, entry i (i ≥ 1) is the percentage change from value i-1 to value i. -/
def pct_change_list : List ℚ → List (Option ℚ)
  | [] => []
  | x :: xs => none :: pctGo x xs

/-- Valid (non-nan) entries of a float column, as pandas skipna reductions
see them. -/
def valids (l : List (Option ℚ)) : List ℚ := l.filterMap id

/-- Model of pandas `Series.mean()`: nan on an all-nan/empty column. -/
def meanOpt (l : List ℚ) : Option ℚ :=
  if l.length = 0 then none else some (l.sum / l.length)

/-- Model of pandas `Series.std()` squared: the sample variance (ddof=1),
nan with fewer than two valid observations. -/
def sampleVarOpt (l : List ℚ) : Option ℚ :=
  if l.length < 2 then none
  else some ((l.map (fun x => (x - l.sum / l.length) ^ 2)).sum / ((l.length : ℚ) - 1))

/-- Model of `(1 + df['daily_return']/100).cumprod()`: pandas cumprod with
skipna=True keeps nan entries nan but does not poison later entries. -/
def cumprod_sk (acc : ℚ) : List (Option ℚ) → List (Option ℚ)
  | [] => []
  | none :: t => none :: cumprod_sk acc t
  | some r :: t =>
    let a := acc * (1 + r / 100)
    some a :: cumprod_sk a t

/-- Model of `cumulative.expanding().max()`: the running maximum of the
valid entries seen so far, nan while no valid entry has appeared. -/
def runmax_sk (best : Option ℚ) : List (Option ℚ) → List (Option ℚ)
  | [] => []
  | none :: t => best :: runmax_sk best t
  | some v :: t =>
    let b := match best with
      | none => v
      | some m => max m v
    some b :: runmax_sk (some b) t

/-- One entry of `(cumulative - running_max) / running_max * 100`. -/
def dd_entry : Option ℚ → Option ℚ → Option ℚ
  | some c, some m => if m = 0 then none else some ((c - m) / m * 100)
  | _, _ => none

/-- Model of pandas `Series.min()`: minimum of the valid entries, nan when
there is none. -/
def minOpt (l : List (Option ℚ)) : Option ℚ :=
  l.foldl
    (fun acc v =>
      match acc, v with
      | none, v => v
      | some a, none => some a
      | some a, some b => some (min a b))
    none

/-- The dict built by `calculate_returns` (src/financial_analyzer.py,
lines 131-164).  A period key that the loop never creates is an outer
`none`; an existing key whose float value is a non-number is
`some none`.  The keys `cagr_1_month` &c. can never be created (the
`days >= 365` test fails), so they have no field. -/
structure ReturnsMap where
  current_price : ℚ
  current_value : Option ℚ
  invested_amount : ℚ
  absolute_return : Option ℚ
  return_percentage : Option ℚ
  units : Option ℚ
  latest_date : ℤ
  ret_1_month : Option (Option ℚ)
  ret_3_months : Option (Option ℚ)
  ret_6_months : Option (Option ℚ)
  ret_1_year : Option (Option ℚ)
  ret_3_years : Option (Option ℚ)
  cagr_1_year : Option (Option ℚ)
  cagr_3_years : Option (Option ℚ)
deriving DecidableEq

/-- Row selection `df[df['date'] <= past_date]` followed by `.iloc[-1]`
(last row of the filtered frame), `none` when the filter is empty. -/
def pastPoint (df : List PricePoint) (cutoff : ℤ) : Option PricePoint :=
  (df.filter (fun p => p.date ≤ cutoff)).getLast?

/-- The `return_<period>` entry for a trailing window of `w` days
(lines 150-156 and 164 of the source). -/
def periodRet (latest : ℚ) (df : List PricePoint) (lastDate : ℤ) (w : ℤ) :
    Option (Option ℚ) :=
  (pastPoint df (lastDate - w)).map fun pp =>
    round2o (pMul (pDiv (some (latest - pp.close)) (some pp.close)) (some 100))

/-- The `cagr_<period>` entry for a trailing window of `w` days: created
only when `w ≥ 365` and a past point exists (lines 158-162). -/
def periodCagr (powf : ℚ → ℚ → ℚ) (latest : ℚ) (df : List PricePoint)
    (lastDate : ℤ) (w : ℤ) : Option (Option ℚ) :=
  if 365 ≤ w then
    (pastPoint df (lastDate - w)).map fun pp =>
      round2o (pMul (pSub ((pDiv (some latest) (some pp.close)).map
        (fun b => powf b (365 / (w : ℚ)))) (some 1)) (some 100))
  else none

/-- First Close of the series (`df.iloc[0]['Close']`). -/
def seriesOldest (df : List PricePoint) : ℚ := (df.headD ⟨0, 0⟩).close

/-- Last Close of the series (`df.iloc[-1]['Close']`). -/
def seriesLatest (df : List PricePoint) : ℚ := (df.getLastD ⟨0, 0⟩).close

/-- Last date of the series (`df.iloc[-1]['date']`). -/
def seriesLastDate (df : List PricePoint) : ℤ := (df.getLastD ⟨0, 0⟩).date

/-- Embedding of `FinancialAnalyzer.calculate_returns`
(src/financial_analyzer.py, lines 117-166).  Returns `none` for the empty
dict produced when the series has fewer than 2 points. -/
def calculate_returns (powf : ℚ → ℚ → ℚ) (df : List PricePoint)
    (current_investment : ℚ) : Option ReturnsMap :=
  if df.length < 2 then none
  else
    let latest_price := seriesLatest df
    let oldest_price := seriesOldest df
    let lastDate := seriesLastDate df
    let units := pDiv (some current_investment) (some oldest_price)
    let current_value := pMul units (some latest_price)
    let absolute_return := pSub current_value (some current_investment)
    let return_pct := pMul (pDiv absolute_return (some current_investment)) (some 100)
    some
      { current_price := round2 latest_price
        current_value := round2o current_value
        invested_amount := round2 current_investment
        absolute_return := round2o absolute_return
        return_percentage := round2o return_pct
        units := round2o units
        latest_date := lastDate
        ret_1_month := periodRet latest_price df lastDate 30
        ret_3_months := periodRet latest_price df lastDate 90
        ret_6_months := periodRet latest_price df lastDate 180
        ret_1_year := periodRet latest_price df lastDate 365
        ret_3_years := periodRet latest_price df lastDate 1095
        cagr_1_year := periodCagr powf latest_price df lastDate 365
        cagr_3_years := periodCagr powf latest_price df lastDate 1095 }

/-- State-passing view of `calculate_returns` on the shared DataFrame: the
function only reads the frame, so the frame comes back unchanged. -/
def calculate_returns_df (powf : ℚ → ℚ → ℚ) (df : DataFrame)
    (current_investment : ℚ) : Option ReturnsMap × DataFrame :=
  (calculate_returns powf df.rows current_investment, df)

/-- Placeholder float power for instantiating `powf` at concrete inputs. -/
def powId : ℚ → ℚ → ℚ := fun b _ => b

/-- Placeholder square root that is zero everywhere. -/
def zeroSqrt : ℚ → ℚ := fun _ => 0

/-- Placeholder square root equal to the identity. -/
def idSqrt : ℚ → ℚ := fun q => q

example : (calculate_returns powId [⟨0, 100⟩, ⟨150, 120⟩] 1000).map ReturnsMap.units
    = some (some 10) := by with_unfolding_all decide

example : (calculate_returns powId [⟨0, 100⟩, ⟨1, 110⟩] 0).map ReturnsMap.return_percentage
    = some none := by with_unfolding_all decide

/-- The dict built by `calculate_risk_metrics` (src/financial_analyzer.py,
lines 175-194).  Entries carrying a nan float are `none`. -/
structure RiskMetrics where
  max_price : ℚ
  min_price : ℚ
  volatility : Option ℚ
  max_drawdown : Option ℚ
  sharpe_ratio : Option ℚ
deriving DecidableEq

/-- The column `df['Close'].pct_change() * 100` computed from the rows. -/
def dailyReturns (rows : List PricePoint) : List (Option ℚ) :=
  pct_change_list (rows.map PricePoint.close)

/-- Line 178 of the source: `round(df['daily_return'].std() * (252 ** 0.5), 2)`,
with `sqrtf` standing for the float square root (so `std = sqrtf variance`
and `252 ** 0.5 = sqrtf 252`). -/
def riskVolatility (sqrtf : ℚ → ℚ) (dr : List (Option ℚ)) : Option ℚ :=
  round2o (pMul ((sampleVarOpt (valids dr)).map sqrtf) (some (sqrtf 252)))

/-- Lines 182-184 of the source: the drawdown column
`(cumulative - running_max) / running_max * 100`. -/
def drawdownSeries (dr : List (Option ℚ)) : List (Option ℚ) :=
  List.zipWith dd_entry (cumprod_sk 1 dr) (runmax_sk none (cumprod_sk 1 dr))

/-- Lines 187-194 of the source: the Sharpe ratio guarded by
`stats['volatility'] > 0` (a nan volatility fails the test, giving 0). -/
def riskSharpe (dr : List (Option ℚ)) (vol : Option ℚ) : Option ℚ :=
  match vol with
  | none => some 0
  | some v =>
    if 0 < v then
      round2o (pDiv (pSub ((meanOpt (valids dr)).map (fun m => m * 252)) (some 6)) (some v))
    else some 0

/-- Embedding of `FinancialAnalyzer.calculate_risk_metrics`
(src/financial_analyzer.py, lines 168-196).  The function ASSIGNS the
column `df['daily_return']` on the frame it was handed, so the embedding
passes the frame state through and returns the updated frame; `none` is
the empty dict of the `df.empty` early return (which happens before the
assignment, leaving the frame untouched). -/
def calculate_risk_metrics (sqrtf : ℚ → ℚ) (df : DataFrame) :
    Option RiskMetrics × DataFrame :=
  if df.rows = [] then (none, df)
  else
    (some
      { max_price := round2 ((df.rows.map PricePoint.close).foldl max
          (df.rows.headD ⟨0, 0⟩).close)
        min_price := round2 ((df.rows.map PricePoint.close).foldl min
          (df.rows.headD ⟨0, 0⟩).close)
        volatility := riskVolatility sqrtf (dailyReturns df.rows)
        max_drawdown := round2o (minOpt (drawdownSeries (dailyReturns df.rows)))
        sharpe_ratio := riskSharpe (dailyReturns df.rows)
          (riskVolatility sqrtf (dailyReturns df.rows)) },
      { df with daily_return := some (dailyReturns df.rows) })

/-- The validated-stock dict returned by `search_stock` (only the fields
the analyzer reads afterwards). -/
structure StockInfo where
  symbol : String
  name : String
deriving DecidableEq

/-- Metadata attached to an analysed instrument: empty on the failure
paths, the `meta` dict of mfapi for a fund, the `search_stock` dict for a
stock. -/
inductive MetadataVal where
  | empty : MetadataVal
  | mf : Option String → MetadataVal
  | stock : StockInfo → MetadataVal
deriving DecidableEq

/-- The market-data providers as the analyzer sees them: the mfapi and
yfinance wrappers catch every exception and degrade to `None` or an empty
frame, so each oracle is a total function. -/
structure Providers where
  mf_details : String → Option (Option String)
  mf_history : String → List PricePoint
  stock_search : String → Option StockInfo
  stock_history : String → List PricePoint

/-- The result dict of `analyze_instrument` (src/financial_analyzer.py,
lines 201-208): `returns`/`risk_metrics` are `none` while still the empty
dicts of the template. -/
structure InstrumentResult where
  success : Bool
  instrument_type : String
  name : String
  returns : Option ReturnsMap
  risk_metrics : Option RiskMetrics
  metadata : MetadataVal
deriving DecidableEq

/-- The failure template `result` that `analyze_instrument` starts from. -/
def baseResult (instrument_type : String) : InstrumentResult :=
  { success := false
    instrument_type := instrument_type
    name := ""
    returns := none
    risk_metrics := none
    metadata := MetadataVal.empty }

/-- The mutual-fund branch of `analyze_instrument` (lines 211-220 plus the
shared tail 232-240). -/
def analyze_mf (powf : ℚ → ℚ → ℚ) (sqrtf : ℚ → ℚ) (P : Providers)
    (instrument_type identifier : String) (current_investment : ℚ) :
    InstrumentResult :=
  match P.mf_details identifier with
  | none => baseResult instrument_type
  | some meta =>
    let r1 := { baseResult instrument_type with
      name := meta.getD "Unknown"
      metadata := MetadataVal.mf meta }
    let df := P.mf_history identifier
    if df = [] then r1
    else
      { r1 with
        returns := calculate_returns powf df current_investment
        risk_metrics := (calculate_risk_metrics sqrtf ⟨df, none⟩).1
        success := true }

/-- The stock branch of `analyze_instrument` (lines 222-230 plus the
shared tail 232-240). -/
def analyze_stock (powf : ℚ → ℚ → ℚ) (sqrtf : ℚ → ℚ) (P : Providers)
    (instrument_type identifier : String) (current_investment : ℚ) :
    InstrumentResult :=
  match P.stock_search identifier with
  | none => baseResult instrument_type
  | some si =>
    let r1 := { baseResult instrument_type with
      name := si.name
      metadata := MetadataVal.stock si }
    let df := P.stock_history si.symbol
    if df = [] then r1
    else
      { r1 with
        returns := calculate_returns powf df current_investment
        risk_metrics := (calculate_risk_metrics sqrtf ⟨df, none⟩).1
        success := true }

/-- Embedding of `FinancialAnalyzer.analyze_instrument`
(src/financial_analyzer.py, lines 198-244).  Under the float semantics of
this model no statement of the body can raise, so the catch-all `except`
branch is dead and the function is total. -/
def analyze_instrument (powf : ℚ → ℚ → ℚ) (sqrtf : ℚ → ℚ) (P : Providers)
    (instrument_type identifier : String) (current_investment : ℚ) :
    InstrumentResult :=
  if instrument_type.toLower = "mutual fund" then
    match P.mf_details identifier with
    | none => baseResult instrument_type
    | some meta =>
      let r1 := { baseResult instrument_type with
        name := meta.getD "Unknown"
        metadata := MetadataVal.mf meta }
      let df := P.mf_history identifier
      if df = [] then r1
      else
        { r1 with
          returns := calculate_returns powf df current_investment
          risk_metrics := (calculate_risk_metrics sqrtf ⟨df, none⟩).1
          success := true }
  else
    match P.stock_search identifier with
    | none => baseResult instrument_type
    | some si =>
      let r1 := { baseResult instrument_type with
        name := si.name
        metadata := MetadataVal.stock si }
      let df := P.stock_history si.symbol
      if df = [] then r1
      else
        { r1 with
          returns := calculate_returns powf df current_investment
          risk_metrics := (calculate_risk_metrics sqrtf ⟨df, none⟩).1
          success := true }

/-- The metadata-and-series resolution that `analyze_instrument` performs,
as a single observable: `none` when the relevant provider lookup fails,
otherwise the historical series the analysis will run on. -/
def resolvedSeries (P : Providers) (instrument_type identifier : String) :
    Option (List PricePoint) :=
  if instrument_type.toLower = "mutual fund" then
    (P.mf_details identifier).map (fun _ => P.mf_history identifier)
  else
    (P.stock_search identifier).map (fun si => P.stock_history si.symbol)

/-- One row of the `investments_df` handed to `analyze_portfolio`: the
`scheme_code` and `symbol` cells are NaN (`none`) when absent. -/
structure Holding where
  instrument_type : String
  scheme_code : Option String
  symbol : Option String
  current_investment : ℚ

/-- Identifier selection of src/financial_analyzer.py line 254: the scheme
code for rows typed exactly `Mutual Fund`, the ticker symbol otherwise. -/
def holdingIdentifier (h : Holding) : Option String :=
  if h.instrument_type = "Mutual Fund" then h.scheme_code else h.symbol

/-- Contribution of a successful analysis to the running portfolio value:
`analysis['returns'].get('current_value', 0)` (line 266). -/
def cvOf (a : InstrumentResult) : Option ℚ :=
  match a.returns with
  | none => some 0
  | some r => r.current_value

/-- The summary dict returned by `analyze_portfolio` (lines 272-279). -/
structure PortfolioResult where
  total_invested : ℚ
  total_current_value : Option ℚ
  total_return : Option ℚ
  return_percentage : Option ℚ
  num_investments : ℕ
  instruments : List InstrumentResult

/-- Loop body of the `for _, investment in investments_df.iterrows()` loop
(lines 253-267), over the running state (total_current_value,
portfolio_data). -/
def portfolioStep (powf : ℚ → ℚ → ℚ) (sqrtf : ℚ → ℚ) (P : Providers)
    (st : Option ℚ × List InstrumentResult) (h : Holding) :
    Option ℚ × List InstrumentResult :=
  match holdingIdentifier h with
  | none => st
  | some id =>
    let a := analyze_instrument powf sqrtf P h.instrument_type id h.current_investment
    if a.success then (pAdd st.1 (cvOf a), st.2 ++ [a]) else st

/-- Embedding of `FinancialAnalyzer.analyze_portfolio`
(src/financial_analyzer.py, lines 246-279). -/
def analyze_portfolio (powf : ℚ → ℚ → ℚ) (sqrtf : ℚ → ℚ) (P : Providers)
    (holdings : List Holding) : PortfolioResult :=
  let total_invested := (holdings.map Holding.current_investment).sum
  let res := holdings.foldl (portfolioStep powf sqrtf P) (some 0, [])
  let total_return := pSub res.1 (some total_invested)
  let return_pct :=
    if 0 < total_invested then pMul (pDiv total_return (some total_invested)) (some 100)
    else some 0
  { total_invested := round2 total_invested
    total_current_value := round2o res.1
    total_return := round2o total_return
    return_percentage := round2o return_pct
    num_investments := res.2.length
    instruments := res.2 }

/-- Specification-side view of the loop: the successful analyses of the
holdings whose identifier is present, in input order. -/
def successfulAnalyses (powf : ℚ → ℚ → ℚ) (sqrtf : ℚ → ℚ) (P : Providers)
    (holdings : List Holding) : List InstrumentResult :=
  holdings.filterMap fun h =>
    match holdingIdentifier h with
    | none => none
    | some id =>
      let a := analyze_instrument powf sqrtf P h.instrument_type id h.current_investment
      if a.success then some a else none

theorem calculate_returns_core (powf : ℚ → ℚ → ℚ) (df : List PricePoint)
    (inv : ℚ) (h2 : 2 ≤ df.length) (hinv : inv ≠ 0) (hold : seriesOldest df ≠ 0) :
    ∃ r, calculate_returns powf df inv = some r ∧
      r.units = some (round2 (inv / seriesOldest df)) ∧
      r.current_value = some (round2 (inv / seriesOldest df * seriesLatest df)) ∧
      r.absolute_return = some (round2 (inv / seriesOldest df * seriesLatest df - inv)) ∧
      r.return_percentage =
        some (round2 ((inv / seriesOldest df * seriesLatest df - inv) / inv * 100)) := by
  unfold calculate_returns
  rw [if_neg (by omega : ¬ df.length < 2)]
  refine ⟨_, rfl, ?_, ?_, ?_, ?_⟩ <;>
    simp [pDiv, pMul, pSub, round2o, hinv, hold]

theorem getLast?_pairwise_spec {α : Type} (R : α → α → Prop) :
    ∀ (l : List α), l.Pairwise R → ∀ b, l.getLast? = some b →
      b ∈ l ∧ ∀ x ∈ l, x = b ∨ R x b := by
  intro l
  induction l with
  | nil => intro _ b hb; simp at hb
  | cons a t ih =>
    intro hp b hb
    cases t with
    | nil =>
      simp only [List.getLast?_singleton, Option.some.injEq] at hb
      subst hb
      constructor
      · simp
      · intro x hx
        simp at hx
        exact Or.inl hx
    | cons c t2 =>
      rw [List.getLast?_cons_cons] at hb
      have hp2 : (c :: t2).Pairwise R := hp.of_cons
      obtain ⟨hbm, hmax⟩ := ih hp2 b hb
      refine ⟨List.mem_cons_of_mem _ hbm, ?_⟩
      intro x hx
      rcases List.mem_cons.mp hx with hxa | hxt
      · subst hxa
        exact Or.inr ((List.pairwise_cons.mp hp).1 b hbm)
      · exact hmax x hxt

theorem pastPoint_none (df : List PricePoint) (cutoff : ℤ)
    (h : ∀ q ∈ df, ¬ q.date ≤ cutoff) : pastPoint df cutoff = none := by
  unfold pastPoint
  have : df.filter (fun p => p.date ≤ cutoff) = [] := by
    rw [List.filter_eq_nil_iff]
    intro a ha
    simpa using h a ha
  rw [this]
  rfl

theorem pastPoint_is_max (df : List PricePoint) (cutoff : ℤ)
    (hs : List.Pairwise (fun a b => a.date ≤ b.date) df)
    (pp : PricePoint) (hmem : pp ∈ df) (hle : pp.date ≤ cutoff) :
    ∃ pb, pastPoint df cutoff = some pb ∧ pb ∈ df ∧ pb.date ≤ cutoff ∧
      ∀ q ∈ df, q.date ≤ cutoff → q.date ≤ pb.date := by
  have hmemf : pp ∈ df.filter (fun p => p.date ≤ cutoff) := by
    rw [List.mem_filter]
    exact ⟨hmem, by simpa using hle⟩
  have hne : df.filter (fun p => p.date ≤ cutoff) ≠ [] := List.ne_nil_of_mem hmemf
  cases hlast : (df.filter (fun p => p.date ≤ cutoff)).getLast? with
  | none =>
    rw [List.getLast?_eq_none_iff] at hlast
    exact absurd hlast hne
  | some pb =>
    have hsf : (df.filter (fun p => p.date ≤ cutoff)).Pairwise
        (fun a b => a.date ≤ b.date) := hs.filter _
    obtain ⟨hbm, hmax⟩ := getLast?_pairwise_spec _ _ hsf pb hlast
    rw [List.mem_filter] at hbm
    refine ⟨pb, hlast, hbm.1, by simpa using hbm.2, ?_⟩
    intro q hq hqle
    have hqf : q ∈ df.filter (fun p => p.date ≤ cutoff) := by
      rw [List.mem_filter]
      exact ⟨hq, by simpa using hqle⟩
    rcases hmax q hqf with h1 | h2
    · subst h1; exact le_refl _
    · exact h2

theorem pipe_dd :
    ∀ (t : List ℚ) (y acc : ℚ) (best : Option ℚ),
      0 < y → (∀ z ∈ t, 0 < z) → 0 < acc → (∀ b, best = some b → 0 < b) →
      ∃ out : List ℚ,
        List.zipWith dd_entry (cumprod_sk acc (pctGo y t))
            (runmax_sk best (cumprod_sk acc (pctGo y t))) = out.map some ∧
        out.length = t.length ∧
        (∀ x ∈ out, x ≤ 0) ∧
        (List.Chain' (· ≤ ·) (y :: t) → (∀ b, best = some b → b ≤ acc) →
          ∀ x ∈ out, x = 0) := by
  intro t
  induction t with
  | nil =>
    intro y acc best _ _ _ _
    exact ⟨[], by simp [pctGo, cumprod_sk, runmax_sk], by simp, by simp, by simp⟩
  | cons z t2 ih =>
    intro y acc best hy ht ha hb
    have hz : 0 < z := ht z (by simp)
    have ht2 : ∀ w ∈ t2, 0 < w := fun w hw => ht w (by simp [hw])
    have hyne : y ≠ 0 := ne_of_gt hy
    have hpct : pctGo y (z :: t2) =
        some ((z - y) / y * 100) :: pctGo z t2 := by simp [pctGo, hyne]
    have hcz : acc * (1 + (z - y) / y * 100 / 100) = acc * (z / y) := by
      field_simp
      ring
    have hcpos : 0 < acc * (z / y) := by positivity
    have hcum : cumprod_sk acc (pctGo y (z :: t2)) =
        some (acc * (z / y)) :: cumprod_sk (acc * (z / y)) (pctGo z t2) := by
      rw [hpct]
      simp only [cumprod_sk, hcz]
    obtain ⟨b2, hb2eq, hb2pos, hcb2, hb2c⟩ :
        ∃ b2, runmax_sk best (some (acc * (z / y)) :: cumprod_sk (acc * (z / y)) (pctGo z t2)) =
            some b2 :: runmax_sk (some b2) (cumprod_sk (acc * (z / y)) (pctGo z t2)) ∧
          0 < b2 ∧ acc * (z / y) ≤ b2 ∧
          ((∀ b, best = some b → b ≤ acc) → acc ≤ acc * (z / y) → b2 = acc * (z / y)) := by
      cases best with
      | none =>
        exact ⟨acc * (z / y), by simp [runmax_sk], hcpos, le_refl _, fun _ _ => rfl⟩
      | some m =>
        refine ⟨max m (acc * (z / y)), by simp [runmax_sk], ?_, le_max_right _ _, ?_⟩
        · exact lt_of_lt_of_le hcpos (le_max_right _ _)
        · intro hle hac
          exact max_eq_right ((hle m rfl).trans hac)
    obtain ⟨out2, hzip2, hlen2, hnonpos2, hzero2⟩ :=
      ih z (acc * (z / y)) (some b2) hz ht2 hcpos
        (fun b hb0 => by injection hb0 with hh; rw [← hh]; exact hb2pos)
    have hb2ne : b2 ≠ 0 := ne_of_gt hb2pos
    have hzip : List.zipWith dd_entry (cumprod_sk acc (pctGo y (z :: t2)))
        (runmax_sk best (cumprod_sk acc (pctGo y (z :: t2)))) =
        ((acc * (z / y) - b2) / b2 * 100 :: out2).map some := by
      rw [hcum, hb2eq]
      simp [dd_entry, hb2ne, hzip2]
    have he_nonpos : (acc * (z / y) - b2) / b2 * 100 ≤ 0 := by
      have h1 : acc * (z / y) - b2 ≤ 0 := sub_nonpos.mpr hcb2
      have h2 : (acc * (z / y) - b2) / b2 ≤ 0 :=
        div_nonpos_iff.mpr (Or.inr ⟨h1, hb2pos.le⟩)
      linarith
    refine ⟨(acc * (z / y) - b2) / b2 * 100 :: out2, hzip, by simp [hlen2], ?_, ?_⟩
    · intro x hx
      rcases List.mem_cons.mp hx with h | h
      · rw [h]; exact he_nonpos
      · exact hnonpos2 x h
    · intro hchain hble x hx
      have hyz : y ≤ z := (List.chain'_cons.mp hchain).1
      have hcge : acc ≤ acc * (z / y) := by
        have h1 : (1 : ℚ) ≤ z / y := (one_le_div hy).mpr hyz
        nlinarith
      have hb2c2 : b2 = acc * (z / y) := hb2c hble hcge
      rcases List.mem_cons.mp hx with h | h
      · rw [h, hb2c2]
        simp
      · exact hzero2 (List.chain'_cons.mp hchain).2
          (fun b hb0 => by injection hb0 with hh; rw [← hh, hb2c2]) x h

theorem minOpt_cons_none (l : List (Option ℚ)) : minOpt (none :: l) = minOpt l := rfl

theorem foldl_min_spec :
    ∀ (l : List ℚ) (a : ℚ),
      ∃ v, List.foldl
          (fun acc w =>
            match acc, w with
            | none, v => v
            | some a, none => some a
            | some a, some b => some (min a b))
          (some a) (l.map some) = some v ∧
        (v = a ∨ v ∈ l) ∧ v ≤ a ∧ ∀ x ∈ l, v ≤ x := by
  intro l
  induction l with
  | nil => intro a; exact ⟨a, rfl, Or.inl rfl, le_refl _, by simp⟩
  | cons b t ih =>
    intro a
    obtain ⟨v, hv, hvm, hva, hvall⟩ := ih (min a b)
    refine ⟨v, ?_, ?_, ?_, ?_⟩
    · simpa using hv
    · rcases hvm with h | h
      · rcases min_choice a b with hm | hm
        · exact Or.inl (h.trans hm)
        · exact Or.inr (by simp [h.trans hm])
      · exact Or.inr (by simp [h])
    · exact hva.trans (min_le_left _ _)
    · intro x hx
      rcases List.mem_cons.mp hx with h | h
      · rw [h]; exact hva.trans (min_le_right _ _)
      · exact hvall x h

theorem minOpt_map_some (o : ℚ) (rest : List ℚ) :
    ∃ v, minOpt ((o :: rest).map some) = some v ∧ (v = o ∨ v ∈ rest) ∧
      v ≤ o ∧ ∀ x ∈ rest, v ≤ x := by
  obtain ⟨v, hv, hvm, hva, hvall⟩ := foldl_min_spec rest o
  exact ⟨v, by simpa [minOpt] using hv, hvm, hva, hvall⟩

theorem risk_drawdown_core (sqrtf : ℚ → ℚ) (rows : List PricePoint)
    (d : Option (List (Option ℚ)))
    (h2 : 2 ≤ rows.length) (hpos : ∀ p ∈ rows, 0 < p.close) :
    ∃ m v, (calculate_risk_metrics sqrtf ⟨rows, d⟩).1 = some m ∧
      m.max_drawdown = some (round2 v) ∧ v ≤ 0 ∧
      (List.Chain' (fun a b => a.close ≤ b.close) rows → v = 0) := by
  cases rows with
  | nil => simp at h2
  | cons p0 tl =>
  cases tl with
  | nil => simp at h2
  | cons p1 t =>
  have hp0 : 0 < p0.close := hpos p0 (by simp)
  have hall : ∀ z ∈ p1.close :: t.map PricePoint.close, 0 < z := by
    intro z hz
    rcases List.mem_cons.mp hz with h | h
    · rw [h]; exact hpos p1 (by simp)
    · obtain ⟨q, hq, hqz⟩ := List.mem_map.mp h
      rw [← hqz]
      exact hpos q (by simp [hq])
  obtain ⟨out, hzip, hlen, hnp, hz0⟩ :=
    pipe_dd (p1.close :: t.map PricePoint.close) p0.close 1 none hp0 hall one_pos
      (fun b hb => by simp at hb)
  have hdr : dailyReturns (p0 :: p1 :: t) =
      none :: pctGo p0.close (p1.close :: t.map PricePoint.close) := by
    simp [dailyReturns, pct_change_list]
  have hdd : drawdownSeries (dailyReturns (p0 :: p1 :: t)) = none :: out.map some := by
    unfold drawdownSeries
    rw [hdr]
    simp only [cumprod_sk, runmax_sk, List.zipWith_cons_cons, dd_entry]
    rw [hzip]
  cases out with
  | nil =>
    exfalso
    simp at hlen
  | cons o rest =>
  obtain ⟨v, hv, hvm, hvo, hvall⟩ := minOpt_map_some o rest
  have hminall : minOpt (drawdownSeries (dailyReturns (p0 :: p1 :: t))) = some v := by
    rw [hdd, minOpt_cons_none, hv]
  have hvle : v ≤ 0 := by
    rcases hvm with h | h
    · rw [h]; exact hnp o (by simp)
    · exact hnp v (by simp [h])
  unfold calculate_risk_metrics
  rw [if_neg (by simp : ¬ (DataFrame.mk (p0 :: p1 :: t) d).rows = [])]
  refine ⟨_, v, rfl, ?_, hvle, ?_⟩
  · show round2o (minOpt (drawdownSeries (dailyReturns (p0 :: p1 :: t)))) = some (round2 v)
    rw [hminall]
    rfl
  · intro hchain
    have hchain2 : List.Chain' (· ≤ ·)
        (p0.close :: p1.close :: t.map PricePoint.close) := by
      have := (List.chain'_map PricePoint.close).mpr hchain
      simpa using this
    have hz := hz0 hchain2 (fun b hb => by simp at hb)
    rcases hvm with h | h
    · rw [h]; exact hz o (by simp)
    · exact hz v (by simp [h])

theorem risk_one_point (sqrtf : ℚ → ℚ) (p : PricePoint)
    (d : Option (List (Option ℚ))) :
    ∃ m, (calculate_risk_metrics sqrtf ⟨[p], d⟩).1 = some m ∧
      m.volatility = none ∧ m.max_drawdown = none ∧
      RiskMetrics.sharpe_ratio m = some 0 := by
  unfold calculate_risk_metrics
  rw [if_neg (by simp : ¬ (DataFrame.mk [p] d).rows = [])]
  exact ⟨_, rfl, rfl, rfl, rfl⟩

theorem riskVolatility_some (sqrtf : ℚ → ℚ) (dr : List (Option ℚ)) (v : ℚ)
    (hv : riskVolatility sqrtf dr = some v) :
    2 ≤ (valids dr).length ∧
      ∃ mn, meanOpt (valids dr) = some mn := by
  unfold riskVolatility at hv
  cases hvar : sampleVarOpt (valids dr) with
  | none => rw [hvar] at hv; simp [pMul, round2o] at hv
  | some w =>
    have hlen : ¬ (valids dr).length < 2 := by
      intro hcon
      rw [sampleVarOpt, if_pos hcon] at hvar
      exact Option.noConfusion hvar
    refine ⟨by omega, ?_⟩
    rw [meanOpt, if_neg (by omega)]
    exact ⟨_, rfl⟩

theorem risk_sharpe_core (sqrtf : ℚ → ℚ) (rows : List PricePoint)
    (d : Option (List (Option ℚ))) (m : RiskMetrics)
    (hm : (calculate_risk_metrics sqrtf ⟨rows, d⟩).1 = some m) :
    (∃ s, RiskMetrics.sharpe_ratio m = some s) ∧
    (m.volatility = some 0 → RiskMetrics.sharpe_ratio m = some 0) ∧
    (∀ v, m.volatility = some v → 0 < v →
      ∃ mn, meanOpt (valids (dailyReturns rows)) = some mn ∧
        RiskMetrics.sharpe_ratio m = some (round2 ((mn * 252 - 6) / v))) := by
  cases hrows : rows with
  | nil =>
    subst hrows
    rw [calculate_risk_metrics, if_pos rfl] at hm
    exact Option.noConfusion hm
  | cons p0 tl =>
    subst hrows
    rw [calculate_risk_metrics,
      if_neg (by simp : ¬ (DataFrame.mk (p0 :: tl) d).rows = [])] at hm
    have hm2 := Option.some.inj hm
    have hvol : m.volatility = riskVolatility sqrtf (dailyReturns (p0 :: tl)) := by
      rw [← hm2]
    have hsh : RiskMetrics.sharpe_ratio m =
        riskSharpe (dailyReturns (p0 :: tl))
          (riskVolatility sqrtf (dailyReturns (p0 :: tl))) := by
      rw [← hm2]
    have hformula : ∀ v, riskVolatility sqrtf (dailyReturns (p0 :: tl)) = some v → 0 < v →
        ∃ mn, meanOpt (valids (dailyReturns (p0 :: tl))) = some mn ∧
          RiskMetrics.sharpe_ratio m = some (round2 ((mn * 252 - 6) / v)) := by
      intro v hv hvpos
      obtain ⟨_, mn, hmn⟩ := riskVolatility_some sqrtf _ v hv
      refine ⟨mn, hmn, ?_⟩
      rw [hsh, hv, riskSharpe, if_pos hvpos, hmn]
      simp [pSub, pDiv, round2o, ne_of_gt hvpos]
    refine ⟨?_, ?_, ?_⟩
    · cases hv : riskVolatility sqrtf (dailyReturns (p0 :: tl)) with
      | none => exact ⟨0, by rw [hsh, hv]; rfl⟩
      | some v =>
        by_cases hvpos : 0 < v
        · obtain ⟨mn, _, hse⟩ := hformula v hv hvpos
          exact ⟨_, hse⟩
        · exact ⟨0, by rw [hsh, hv, riskSharpe, if_neg hvpos]⟩
    · intro hm0
      rw [hvol] at hm0
      rw [hsh, hm0, riskSharpe, if_neg (by norm_num)]
    · intro v hmv hvpos
      rw [hvol] at hmv
      exact hformula v hmv hvpos

theorem portfolio_loop (powf : ℚ → ℚ → ℚ) (sqrtf : ℚ → ℚ) (P : Providers) :
    ∀ (hs : List Holding) (acc : Option ℚ) (lst : List InstrumentResult),
      hs.foldl (portfolioStep powf sqrtf P) (acc, lst) =
        (((successfulAnalyses powf sqrtf P hs).map cvOf).foldl pAdd acc,
          lst ++ successfulAnalyses powf sqrtf P hs) := by
  intro hs
  induction hs with
  | nil => intro acc lst; simp [successfulAnalyses]
  | cons h t ih =>
    intro acc lst
    cases hid : holdingIdentifier h with
    | none =>
      simp only [List.foldl_cons, successfulAnalyses, List.filterMap_cons, hid]
      simpa [portfolioStep, hid, successfulAnalyses] using ih acc lst
    | some id =>
      by_cases hsucc :
          (analyze_instrument powf sqrtf P h.instrument_type id h.current_investment).success = true
      · simp only [List.foldl_cons, successfulAnalyses, List.filterMap_cons, hid,
          portfolioStep, hsucc, if_true]
        simpa [successfulAnalyses, hsucc, List.append_assoc] using
          ih (pAdd acc (cvOf (analyze_instrument powf sqrtf P h.instrument_type id
            h.current_investment)))
            (lst ++ [analyze_instrument powf sqrtf P h.instrument_type id
              h.current_investment])
      · simp only [List.foldl_cons, successfulAnalyses, List.filterMap_cons, hid,
          portfolioStep, hsucc, if_false]
        simpa [successfulAnalyses, hsucc] using ih acc lst

/-- Test provider: every stock resolves and has a one-point history. -/
def provOnePoint : Providers :=
  { mf_details := fun _ => none
    mf_history := fun _ => []
    stock_search := fun _ => some ⟨"X.NS", "XCo"⟩
    stock_history := fun _ => [⟨0, 100⟩] }

/-- Test provider: every stock resolves but its history is empty. -/
def provEmpty : Providers :=
  { mf_details := fun _ => none
    mf_history := fun _ => []
    stock_search := fun _ => some ⟨"X.NS", "XCo"⟩
    stock_history := fun _ => [] }

/-- Test provider: every stock resolves with a 2-point rising history. -/
def provTwoPoint : Providers :=
  { mf_details := fun _ => none
    mf_history := fun _ => []
    stock_search := fun _ => some ⟨"X.NS", "XCo"⟩
    stock_history := fun _ => [⟨0, 100⟩, ⟨1, 110⟩] }

example : ((calculate_risk_metrics zeroSqrt ⟨[⟨0, 100⟩], none⟩).1.map
    RiskMetrics.volatility) = some none := by with_unfolding_all decide

example : ((calculate_risk_metrics zeroSqrt ⟨[⟨0, 100⟩, ⟨1, 0⟩], none⟩).1.map
    RiskMetrics.max_drawdown) = some none := by with_unfolding_all decide

example : ((calculate_risk_metrics zeroSqrt ⟨[⟨0, 50⟩, ⟨1, 50⟩, ⟨2, 50⟩], none⟩).1.map
    RiskMetrics.volatility) = some (some 0) := by with_unfolding_all decide

example : (analyze_instrument powId zeroSqrt provOnePoint "Stock" "X" 100).success
    = true := by with_unfolding_all decide

theorem analyze_instrument_branch (powf : ℚ → ℚ → ℚ) (sqrtf : ℚ → ℚ)
    (P : Providers) (ty id : String) (inv : ℚ) :
    analyze_instrument powf sqrtf P ty id inv =
      if ty.toLower = "mutual fund" then analyze_mf powf sqrtf P ty id inv
      else analyze_stock powf sqrtf P ty id inv := by
  by_cases h : ty.toLower = "mutual fund" <;>
    simp only [analyze_instrument, analyze_mf, analyze_stock, h, if_true, if_false,
      reduceIte]

theorem calculate_returns_short (powf : ℚ → ℚ → ℚ) (df : List PricePoint)
    (inv : ℚ) (h : df.length < 2) : calculate_returns powf df inv = none := by
  simp [calculate_returns, h]

theorem analyze_mf_success_iff (powf : ℚ → ℚ → ℚ) (sqrtf : ℚ → ℚ)
    (P : Providers) (ty id : String) (inv : ℚ) :
    (analyze_mf powf sqrtf P ty id inv).success = true ↔
      (P.mf_details id).isSome ∧ P.mf_history id ≠ [] := by
  unfold analyze_mf
  cases h : P.mf_details id with
  | none => simp [baseResult]
  | some meta =>
    by_cases hd : P.mf_history id = [] <;> simp [hd, baseResult]

theorem analyze_stock_success_iff (powf : ℚ → ℚ → ℚ) (sqrtf : ℚ → ℚ)
    (P : Providers) (ty id : String) (inv : ℚ) :
    (analyze_stock powf sqrtf P ty id inv).success = true ↔
      ∃ si, P.stock_search id = some si ∧ P.stock_history si.symbol ≠ [] := by
  unfold analyze_stock
  cases h : P.stock_search id with
  | none => simp [baseResult]
  | some si =>
    by_cases hd : P.stock_history si.symbol = [] <;> simp [hd, baseResult]

theorem analyze_mf_returns_short (powf : ℚ → ℚ → ℚ) (sqrtf : ℚ → ℚ)
    (P : Providers) (ty id : String) (inv : ℚ)
    (hl : (P.mf_history id).length < 2) :
    (analyze_mf powf sqrtf P ty id inv).returns = none := by
  unfold analyze_mf
  cases h : P.mf_details id with
  | none => simp [baseResult]
  | some meta =>
    by_cases hd : P.mf_history id = [] <;>
      simp [hd, baseResult, calculate_returns_short _ _ _ hl]

theorem round2_abs_le (q : ℚ) : |round2 q - q| ≤ 1 / 200 := by
  rw [round2_eq]
  have h := abs_sub_round (q * 100)
  rw [abs_sub_comm] at h
  have he : ((round (q * 100) : ℤ) : ℚ) / 100 - q = (((round (q * 100) : ℤ) : ℚ) - q * 100) / 100 := by
    ring
  rw [he, abs_div]
  have h100 : |(100 : ℚ)| = 100 := by norm_num
  rw [h100]
  rw [div_le_div_iff₀ (by norm_num) (by norm_num)]
  nlinarith [h]

theorem round2_nonpos (q : ℚ) (h : q ≤ 0) : round2 q ≤ 0 := by
  rw [round2_eq]
  have h1 : round (q * 100) ≤ 0 := by
    rw [round_eq]
    have h0 : (⌊q * 100 + 1 / 2⌋ : ℤ) ≤ ⌊(1 : ℚ) / 2⌋ := by
      apply Int.floor_le_floor
      nlinarith
    have h12 : (⌊(1 : ℚ) / 2⌋ : ℤ) = 0 := by norm_num [Int.floor_eq_zero_iff]
    omega
  have h2 : ((round (q * 100) : ℤ) : ℚ) ≤ 0 := by exact_mod_cast h1
  linarith

theorem round2_zero : round2 0 = 0 := by
  rw [round2_eq]
  simp

theorem analyze_stock_returns_short (powf : ℚ → ℚ → ℚ) (sqrtf : ℚ → ℚ)
    (P : Providers) (ty id : String) (inv : ℚ)
    (hl : ∀ si, P.stock_search id = some si → (P.stock_history si.symbol).length < 2) :
    (analyze_stock powf sqrtf P ty id inv).returns = none := by
  unfold analyze_stock
  cases h : P.stock_search id with
  | none => simp [baseResult]
  | some si =>
    by_cases hd : P.stock_history si.symbol = [] <;>
      simp [hd, baseResult, calculate_returns_short _ _ _ (hl si h)]

theorem analyze_instrument_type (powf : ℚ → ℚ → ℚ) (sqrtf : ℚ → ℚ)
    (P : Providers) (ty id : String) (inv : ℚ) :
    (analyze_instrument powf sqrtf P ty id inv).instrument_type = ty := by
  rw [analyze_instrument_branch]
  by_cases h : ty.toLower = "mutual fund" <;>
    simp only [h, if_true, if_false, reduceIte]
  · unfold analyze_mf
    cases P.mf_details id with
    | none => rfl
    | some meta =>
      by_cases hd : P.mf_history id = [] <;> simp [hd, baseResult]
  · unfold analyze_stock
    cases P.stock_search id with
    | none => rfl
    | some si =>
      by_cases hd : P.stock_history si.symbol = [] <;> simp [hd, baseResult]

/-- Fixture series: dates 0, 40, 70 with rising prices. -/
def dfW : List PricePoint := [⟨0, 100⟩, ⟨40, 110⟩, ⟨70, 121⟩]

/-- The ReturnsResult that `calculate_returns` produces on `dfW` with an
investment of 1000: only the 1-month window has a past point. -/
def rW : ReturnsMap :=
  { current_price := 121
    current_value := some 1210
    invested_amount := 1000
    absolute_return := some 210
    return_percentage := some 21
    units := some 10
    latest_date := 70
    ret_1_month := some (some 10)
    ret_3_months := none
    ret_6_months := none
    ret_1_year := none
    ret_3_years := none
    cagr_1_year := none
    cagr_3_years := none }

example : calculate_returns powId dfW 1000 = some rW := by with_unfolding_all decide

/-- Fixture series with one large up move and one large down move. -/
def rows3 : List PricePoint := [⟨0, 100⟩, ⟨1, 200⟩, ⟨2, 100⟩]

/-- The risk metrics of `rows3` under the identity stand-in for sqrt. -/
def m3 : RiskMetrics :=
  { max_price := 200
    min_price := 100
    volatility := some 2835000
    max_drawdown := some (-50)
    sharpe_ratio := some 0 }

example : (calculate_risk_metrics idSqrt ⟨rows3, none⟩).1 = some m3 := by
  rw [calculate_risk_metrics, if_neg (by simp [rows3] : ¬ (DataFrame.mk rows3 none).rows = [])]
  norm_num [rows3, m3, dailyReturns, pct_change_list, pctGo,
    valids, meanOpt, sampleVarOpt, riskVolatility, drawdownSeries, cumprod_sk,
    runmax_sk, dd_entry, minOpt, riskSharpe, round2o, pMul, pSub, pDiv, idSqrt,
    List.filterMap_cons, List.filterMap_nil, round2_eq, round_eq]

/-- Fixture series that never declines. -/
def rowsMono : List PricePoint := [⟨0, 100⟩, ⟨1, 110⟩, ⟨2, 110⟩]

/-- Fixture frame a fresh provider would hand to the risk calculator. -/
def df9 : DataFrame := ⟨[⟨0, 100⟩, ⟨1, 110⟩], none⟩

/-- C1: the spec requires `return_percentage` to be reported as 0 (not
nan, not an error) when `invested_amount = 0`.  The code has no guard: it
computes `absolute_return / current_investment`, which for a zero
investment is `0.0 / 0.0` — nan under the numpy float semantics the
portfolio pipeline runs on (a raised `ZeroDivisionError` for plain Python
floats).  At the failing input (a valid 2-point series, investment 0) the
reported `return_percentage` is the non-number, not 0. -/
theorem c1_zero_invested_divergence :
    (calculate_returns powId [⟨0, 100⟩, ⟨1, 110⟩] 0).map ReturnsMap.return_percentage
      = some none ∧
    (calculate_returns powId [⟨0, 100⟩, ⟨1, 110⟩] 0).map ReturnsMap.return_percentage
      ≠ some (some 0) := by
  constructor
  · with_unfolding_all decide
  · with_unfolding_all decide

/-- C2: `analyze_portfolio` sums `invested_amount` over ALL holdings
(line 248, before the loop, so failed and identifier-less holdings are
included), sums `current_value` over the successful analyses only,
reports `total_return = total_current_value - total_invested` and
`return_percentage = total_return / total_invested * 100` when
`total_invested > 0` and 0 otherwise (all reported values being the
2-decimal roundings of those exact quantities). -/
theorem c2_portfolio_totals (powf : ℚ → ℚ → ℚ) (sqrtf : ℚ → ℚ) (P : Providers)
    (holdings : List Holding) :
    ( analyze_portfolio powf sqrtf P holdings).total_invested =
      round2 ((holdings.map Holding.current_investment).sum) ∧
    ( analyze_portfolio powf sqrtf P holdings).total_current_value =
      round2o (pSum ((successfulAnalyses powf sqrtf P holdings).map cvOf)) ∧
    ( analyze_portfolio powf sqrtf P holdings).total_return =
      round2o (pSub (pSum ((successfulAnalyses powf sqrtf P holdings).map cvOf))
        (some ((holdings.map Holding.current_investment).sum))) ∧
    ( analyze_portfolio powf sqrtf P holdings).return_percentage =
      round2o
        (if 0 < (holdings.map Holding.current_investment).sum then
          pMul (pDiv (pSub (pSum ((successfulAnalyses powf sqrtf P holdings).map cvOf))
              (some ((holdings.map Holding.current_investment).sum)))
            (some ((holdings.map Holding.current_investment).sum))) (some 100)
        else some 0) ∧
    ( analyze_portfolio powf sqrtf P holdings).instruments =
      successfulAnalyses powf sqrtf P holdings := by
  refine ⟨?_, ?_, ?_, ?_, ?_⟩ <;>
    simp [ analyze_portfolio, portfolio_loop, pSum]

/-- C3: counterexample — an instrument whose identifier resolves and whose
historical series has exactly one point is NOT handled like one with an
empty series: `analyze_instrument` reports `success = true` for the
one-point series (only the `df.empty` check guards the success flag)
while the empty series yields `success = false`. -/
theorem c3_one_point_counterexample :
    (analyze_instrument powId zeroSqrt provOnePoint "Stock" "X" 100).success = true ∧
    (analyze_instrument powId zeroSqrt provEmpty "Stock" "X" 100).success = false := by
  constructor
  · with_unfolding_all decide
  · with_unfolding_all decide

/-- C3: amended — `analyze_instrument` reports `success = true` exactly
when the identifier resolves and the fetched series is non-empty; a
resolved series with exactly one point therefore yields `success = true`
(unlike an empty one), with an empty returns dict because only
`calculate_returns` treats a fewer-than-2-point series as unusable. -/
theorem c3_success_iff_nonempty_series (powf : ℚ → ℚ → ℚ) (sqrtf : ℚ → ℚ)
    (P : Providers) (ty id : String) (inv : ℚ) :
    ((analyze_instrument powf sqrtf P ty id inv).success = true ↔
      ∃ h, resolvedSeries P ty id = some h ∧ h ≠ []) ∧
    (∀ h, resolvedSeries P ty id = some h → h.length = 1 →
      (analyze_instrument powf sqrtf P ty id inv).success = true ∧
      (analyze_instrument powf sqrtf P ty id inv).returns = none) := by
  rw [analyze_instrument_branch]
  unfold resolvedSeries
  by_cases hty : ty.toLower = "mutual fund" <;>
    simp only [hty, if_true, if_false, reduceIte]
  · constructor
    · rw [analyze_mf_success_iff]
      cases hmf : P.mf_details id <;> simp [hmf]
    · intro h hres hlen
      cases hmf : P.mf_details id with
      | none => rw [hmf] at hres; exact Option.noConfusion hres
      | some meta =>
        rw [hmf] at hres
        have hh : P.mf_history id = h := Option.some.inj hres
        constructor
        · rw [analyze_mf_success_iff]
          refine ⟨by rw [hmf]; rfl, ?_⟩
          rw [hh]
          intro hcon
          rw [hcon] at hlen
          simp at hlen
        · exact analyze_mf_returns_short powf sqrtf P ty id inv (by rw [hh, hlen]; omega)
  · constructor
    · rw [analyze_stock_success_iff]
      cases hsi : P.stock_search id <;> simp [hsi]
    · intro h hres hlen
      cases hsi : P.stock_search id with
      | none => rw [hsi] at hres; exact Option.noConfusion hres
      | some si =>
        rw [hsi] at hres
        have hh : P.stock_history si.symbol = h := Option.some.inj hres
        constructor
        · rw [analyze_stock_success_iff]
          refine ⟨si, hsi, ?_⟩
          rw [hh]
          intro hcon
          rw [hcon] at hlen
          simp at hlen
        · refine analyze_stock_returns_short powf sqrtf P ty id inv ?_
          intro si2 hsi2
          rw [hsi] at hsi2
          have : si = si2 := Option.some.inj hsi2
          rw [← this, hh, hlen]
          omega

/-- C3: witness — a resolving stock with a one-point history analysed
through `analyze_instrument` succeeds with an empty returns dict. -/
theorem c3_success_iff_witness :
    (analyze_instrument powId zeroSqrt provOnePoint "Stock" "X" 100).success = true ∧
    (analyze_instrument powId zeroSqrt provOnePoint "Stock" "X" 100).returns = none :=
  (c3_success_iff_nonempty_series powId zeroSqrt provOnePoint "Stock" "X" 100).2
    [⟨0, 100⟩] (by with_unfolding_all decide) (by with_unfolding_all decide)

/-- C4: for a series with at least 2 points, a positive investment and a
positive oldest price (the TimeSeries invariant), the reported `units`,
`current_value`, `absolute_return` and `return_percentage` are each within
half of one hundredth of the exact quantities `invested / oldest_price`,
`units * latest_price`, `current_value - invested` and
`absolute_return / invested * 100`. -/
theorem c4_returns_invariants (powf : ℚ → ℚ → ℚ) (df : List PricePoint)
    (inv : ℚ) (h2 : 2 ≤ df.length) (hinv : 0 < inv) (hold : 0 < seriesOldest df) :
    ∃ r, calculate_returns powf df inv = some r ∧
      ∃ u cv ar rp, r.units = some u ∧ r.current_value = some cv ∧
        r.absolute_return = some ar ∧ r.return_percentage = some rp ∧
        |u - inv / seriesOldest df| ≤ 1 / 200 ∧
        |cv - inv / seriesOldest df * seriesLatest df| ≤ 1 / 200 ∧
        |ar - (inv / seriesOldest df * seriesLatest df - inv)| ≤ 1 / 200 ∧
        |rp - (inv / seriesOldest df * seriesLatest df - inv) / inv * 100| ≤ 1 / 200 := by
  obtain ⟨r, hr, hu, hcv, har, hrp⟩ :=
    calculate_returns_core powf df inv h2 (ne_of_gt hinv) (ne_of_gt hold)
  exact ⟨r, hr, _, _, _, _, hu, hcv, har, hrp,
    round2_abs_le _, round2_abs_le _, round2_abs_le _, round2_abs_le _⟩

/-- C4: witness — the invariants evaluated on the fixture series `dfW`
with an investment of 1000. -/
theorem c4_returns_invariants_witness :
    (2 ≤ dfW.length) ∧ (0 < (1000 : ℚ)) ∧ (0 < seriesOldest dfW) ∧
    (∃ r, calculate_returns powId dfW 1000 = some r ∧
      ∃ u cv ar rp, r.units = some u ∧ r.current_value = some cv ∧
        r.absolute_return = some ar ∧ r.return_percentage = some rp ∧
        |u - 1000 / seriesOldest dfW| ≤ 1 / 200 ∧
        |cv - 1000 / seriesOldest dfW * seriesLatest dfW| ≤ 1 / 200 ∧
        |ar - (1000 / seriesOldest dfW * seriesLatest dfW - 1000)| ≤ 1 / 200 ∧
        |rp - (1000 / seriesOldest dfW * seriesLatest dfW - 1000) / 1000 * 100| ≤ 1 / 200) :=
  ⟨by decide, by norm_num, by with_unfolding_all decide,
    c4_returns_invariants powId dfW 1000 (by decide) (by norm_num)
      (by with_unfolding_all decide)⟩

/-- C5: for a date-sorted series with positive prices (the TimeSeries
invariant) on which `calculate_returns` produced a result, every trailing
window in {30, 90, 180, 365, 1095} days behaves as specified: when no
point lies at or before `latest_date - window` the period entry (and any
CAGR entry) is absent from the result map; otherwise the period entry is
`round((latest - past) / past * 100, 2)` where `past` is the price of the
latest eligible point, and a CAGR entry
`round((powf (latest / past) (365 / window) - 1) * 100, 2)` is present
exactly for the windows of at least 365 days.  The first block ties the
result fields to the per-window entries. -/
theorem c5_period_windows (powf : ℚ → ℚ → ℚ) (df : List PricePoint) (inv : ℚ)
    (r : ReturnsMap)
    (hs : List.Pairwise (fun a b => a.date ≤ b.date) df)
    (hpos : ∀ p ∈ df, 0 < p.close)
    (hr : calculate_returns powf df inv = some r) :
    (r.ret_1_month = periodRet (seriesLatest df) df (seriesLastDate df) 30 ∧
     r.ret_3_months = periodRet (seriesLatest df) df (seriesLastDate df) 90 ∧
     r.ret_6_months = periodRet (seriesLatest df) df (seriesLastDate df) 180 ∧
     r.ret_1_year = periodRet (seriesLatest df) df (seriesLastDate df) 365 ∧
     r.ret_3_years = periodRet (seriesLatest df) df (seriesLastDate df) 1095 ∧
     r.cagr_1_year = periodCagr powf (seriesLatest df) df (seriesLastDate df) 365 ∧
     r.cagr_3_years = periodCagr powf (seriesLatest df) df (seriesLastDate df) 1095) ∧
    (∀ w : ℤ, w ∈ ([30, 90, 180, 365, 1095] : List ℤ) →
      ((∀ q ∈ df, ¬ q.date ≤ seriesLastDate df - w) →
        periodRet (seriesLatest df) df (seriesLastDate df) w = none ∧
        periodCagr powf (seriesLatest df) df (seriesLastDate df) w = none) ∧
      (∀ pp ∈ df, pp.date ≤ seriesLastDate df - w →
        ∃ pb, pb ∈ df ∧ pb.date ≤ seriesLastDate df - w ∧
          (∀ q ∈ df, q.date ≤ seriesLastDate df - w → q.date ≤ pb.date) ∧
          periodRet (seriesLatest df) df (seriesLastDate df) w =
            some (some (round2 ((seriesLatest df - pb.close) / pb.close * 100))) ∧
          (365 ≤ w →
            periodCagr powf (seriesLatest df) df (seriesLastDate df) w =
              some (some (round2
                ((powf (seriesLatest df / pb.close) (365 / (w : ℚ)) - 1) * 100)))) ∧
          (w < 365 →
            periodCagr powf (seriesLatest df) df (seriesLastDate df) w = none))) := by
  constructor
  · have hlen : ¬ df.length < 2 := by
      intro hc
      rw [calculate_returns, if_pos hc] at hr
      exact Option.noConfusion hr
    rw [calculate_returns, if_neg hlen] at hr
    have hrec := Option.some.inj hr
    subst hrec
    exact ⟨rfl, rfl, rfl, rfl, rfl, rfl, rfl⟩
  · intro w _
    constructor
    · intro hnone
      have hpn := pastPoint_none df (seriesLastDate df - w) hnone
      constructor
      · unfold periodRet
        rw [hpn]
        rfl
      · unfold periodCagr
        by_cases h365 : (365 : ℤ) ≤ w
        · rw [if_pos h365, hpn]; rfl
        · rw [if_neg h365]
    · intro pp hpp hple
      obtain ⟨pb, hpb, hpbm, hpbd, hpbmax⟩ :=
        pastPoint_is_max df (seriesLastDate df - w) hs pp hpp hple
      have hpbc : pb.close ≠ 0 := ne_of_gt (hpos pb hpbm)
      refine ⟨pb, hpbm, hpbd, hpbmax, ?_, ?_, ?_⟩
      · unfold periodRet
        rw [hpb]
        simp [pDiv, pMul, round2o, hpbc]
      · intro h365
        unfold periodCagr
        rw [if_pos h365, hpb]
        simp [pDiv, pSub, pMul, round2o, hpbc]
      · intro hlt
        unfold periodCagr
        rw [if_neg (by omega)]

/-- C5: witness — on the fixture `dfW` (70-day span) the result map ties
to the per-window entries: the 1-month entry is present and every longer
window and both CAGR keys are absent. -/
theorem c5_period_windows_witness :
    rW.ret_1_month = periodRet (seriesLatest dfW) dfW (seriesLastDate dfW) 30 ∧
    rW.ret_3_months = periodRet (seriesLatest dfW) dfW (seriesLastDate dfW) 90 ∧
    rW.ret_6_months = periodRet (seriesLatest dfW) dfW (seriesLastDate dfW) 180 ∧
    rW.ret_1_year = periodRet (seriesLatest dfW) dfW (seriesLastDate dfW) 365 ∧
    rW.ret_3_years = periodRet (seriesLatest dfW) dfW (seriesLastDate dfW) 1095 ∧
    rW.cagr_1_year = periodCagr powId (seriesLatest dfW) dfW (seriesLastDate dfW) 365 ∧
    rW.cagr_3_years = periodCagr powId (seriesLatest dfW) dfW (seriesLastDate dfW) 1095 :=
  (c5_period_windows powId dfW 1000 rW (by decide)
    (by with_unfolding_all decide) (by with_unfolding_all decide)).1

/-- C6: counterexample — on a non-empty series whose daily
percentage-change column has no valid entry (a single point), the code
reports `sharpe_ratio = 0` but `volatility` and `max_drawdown` as nan
(the sample std of zero valid observations and the min of an all-nan
column are nan, and `round` keeps them nan), not 0 as claimed. -/
theorem c6_one_point_counterexample :
    ((calculate_risk_metrics zeroSqrt ⟨[⟨0, 100⟩], none⟩).1.map
      RiskMetrics.volatility) = some none ∧
    ((calculate_risk_metrics zeroSqrt ⟨[⟨0, 100⟩], none⟩).1.map
      RiskMetrics.max_drawdown) = some none ∧
    ((calculate_risk_metrics zeroSqrt ⟨[⟨0, 100⟩], none⟩).1.map
      RiskMetrics.sharpe_ratio) = some (some 0) ∧
    ((calculate_risk_metrics zeroSqrt ⟨[⟨0, 100⟩], none⟩).1.map
      RiskMetrics.volatility) ≠ some (some 0) := by
  refine ⟨?_, ?_, ?_, ?_⟩ <;> with_unfolding_all decide

/-- C6: amended — for every one-point series (non-empty, empty
daily-change sequence) `calculate_risk_metrics` reports `sharpe_ratio`
as 0 via the `volatility > 0` guard, while `volatility` and
`max_drawdown` are reported as nan, not 0. -/
theorem c6_one_point_metrics (sqrtf : ℚ → ℚ) (p : PricePoint)
    (d : Option (List (Option ℚ))) :
    ∃ m, (calculate_risk_metrics sqrtf ⟨[p], d⟩).1 = some m ∧
      m.volatility = none ∧ m.max_drawdown = none ∧
      RiskMetrics.sharpe_ratio m = some 0 :=
  risk_one_point sqrtf p d

/-- C7: counterexample — `max_drawdown ≤ 0` does not hold for every
series: on the series [(0, 100), (1, 0)] the cumulative growth factor
reaches 0, the drawdown column is 0/0 = nan everywhere, and the reported
`max_drawdown` is nan, so no rational value at most 0 is reported. -/
theorem c7_drawdown_nan_counterexample :
    ((calculate_risk_metrics zeroSqrt ⟨[⟨0, 100⟩, ⟨1, 0⟩], none⟩).1.map
      RiskMetrics.max_drawdown) = some none ∧
    ¬ ∃ v : ℚ, ((calculate_risk_metrics zeroSqrt ⟨[⟨0, 100⟩, ⟨1, 0⟩], none⟩).1.map
      RiskMetrics.max_drawdown) = some (some v) ∧ v ≤ 0 := by
  have h : ((calculate_risk_metrics zeroSqrt ⟨[⟨0, 100⟩, ⟨1, 0⟩], none⟩).1.map
      RiskMetrics.max_drawdown) = some none := by with_unfolding_all decide
  refine ⟨h, ?_⟩
  rintro ⟨v, hv, _⟩
  rw [h] at hv
  exact Option.noConfusion (Option.some.inj hv)

/-- C7: amended — for every series of at least two points with positive
prices (the TimeSeries invariant), the reported `max_drawdown` is a
number and is at most 0, and it equals exactly 0 when the price series is
monotonically non-decreasing.  Without the positive-price restriction the
bound can fail: on the counterexample series [(0, 100), (1, 0)] the
reported `max_drawdown` is nan, hence not a number at most 0 (other
zero-price series may still report a number, e.g. prices 100, 50, 0 give
-100). -/
theorem c7_drawdown_nonpos (sqrtf : ℚ → ℚ) (rows : List PricePoint)
    (d : Option (List (Option ℚ))) (h2 : 2 ≤ rows.length)
    (hpos : ∀ p ∈ rows, 0 < p.close) :
    ∃ m dd, (calculate_risk_metrics sqrtf ⟨rows, d⟩).1 = some m ∧
      m.max_drawdown = some dd ∧ dd ≤ 0 ∧
      (List.Chain' (fun a b => a.close ≤ b.close) rows → dd = 0) := by
  obtain ⟨m, v, hm, hdd, hvle, hmono⟩ := risk_drawdown_core sqrtf rows d h2 hpos
  exact ⟨m, round2 v, hm, hdd, round2_nonpos v hvle,
    fun hc => by rw [hmono hc, round2_zero]⟩

/-- C7: witness — the amended statement evaluated on the non-decreasing
fixture `rowsMono`. -/
theorem c7_drawdown_nonpos_witness :
    (2 ≤ rowsMono.length) ∧ (∀ p ∈ rowsMono, 0 < p.close) ∧
    ∃ m dd, (calculate_risk_metrics zeroSqrt ⟨rowsMono, none⟩).1 = some m ∧
      m.max_drawdown = some dd ∧ dd ≤ 0 ∧
      (List.Chain' (fun a b => a.close ≤ b.close) rowsMono → dd = 0) :=
  ⟨by decide, by with_unfolding_all decide,
    c7_drawdown_nonpos zeroSqrt rowsMono none (by decide)
      (by with_unfolding_all decide)⟩

/-- C8: whenever `calculate_risk_metrics` produces a result, the reported
`sharpe_ratio` is always a number (the division is guarded, it can never
raise); it is 0 when the reported volatility is 0 (or nan); and when the
reported volatility is a positive `v` it is
`round((mean_daily_return * 252 - 6.0) / v, 2)` — the mean being defined
because a numeric volatility needs at least two valid daily returns. -/
theorem c8_sharpe_guard (sqrtf : ℚ → ℚ) (rows : List PricePoint)
    (d : Option (List (Option ℚ))) (m : RiskMetrics)
    (hm : (calculate_risk_metrics sqrtf ⟨rows, d⟩).1 = some m) :
    (∃ s, RiskMetrics.sharpe_ratio m = some s) ∧
    (m.volatility = some 0 → RiskMetrics.sharpe_ratio m = some 0) ∧
    (∀ v, m.volatility = some v → 0 < v →
      ∃ mn, meanOpt (valids (dailyReturns rows)) = some mn ∧
        RiskMetrics.sharpe_ratio m = some (round2 ((mn * 252 - 6) / v))) :=
  risk_sharpe_core sqrtf rows d m hm

/-- C8: witness — on the fixture `rows3` (volatility 2835000 under the
identity stand-in for sqrt) the Sharpe formula branch applies. -/
theorem c8_sharpe_guard_witness :
    ∃ mn, meanOpt (valids (dailyReturns rows3)) = some mn ∧
      RiskMetrics.sharpe_ratio m3 = some (round2 ((mn * 252 - 6) / 2835000)) :=
  (c8_sharpe_guard idSqrt rows3 none m3
    (by
      rw [calculate_risk_metrics,
        if_neg (by simp [rows3] : ¬ (DataFrame.mk rows3 none).rows = [])]
      norm_num [rows3, m3, dailyReturns, pct_change_list, pctGo,
        valids, meanOpt, sampleVarOpt, riskVolatility, drawdownSeries, cumprod_sk,
        runmax_sk, dd_entry, minOpt, riskSharpe, round2o, pMul, pSub, pDiv, idSqrt,
        List.filterMap_cons, List.filterMap_nil, round2_eq, round_eq])).2.2
    2835000 rfl (by norm_num)

/-- C9: counterexample — `calculate_risk_metrics` is not mutation-free on
its input: it assigns the `daily_return` column on the frame it was
handed, so the frame after the call differs from the frame before it. -/
theorem c9_mutation_counterexample :
    (calculate_risk_metrics zeroSqrt df9).2 ≠ df9 ∧
    (calculate_risk_metrics zeroSqrt df9).2.daily_return
      = some (dailyReturns df9.rows) := by
  constructor
  · with_unfolding_all decide
  · with_unfolding_all decide

/-- C9: amended — `calculate_returns` indeed leaves the frame unchanged,
and `calculate_risk_metrics` leaves the (date, price) rows unchanged, but
it mutates the input frame by writing the computed `daily_return` column
onto it (except on an empty frame, where it returns before the
assignment). -/
theorem c9_frame_effects (powf : ℚ → ℚ → ℚ) (sqrtf : ℚ → ℚ) (df : DataFrame)
    (inv : ℚ) :
    (calculate_returns_df powf df inv).2 = df ∧
    (calculate_risk_metrics sqrtf df).2.rows = df.rows ∧
    (calculate_risk_metrics sqrtf df).2 =
      (if df.rows = [] then df
       else { df with daily_return := some (dailyReturns df.rows) }) := by
  refine ⟨rfl, ?_, ?_⟩ <;>
    by_cases h : df.rows = [] <;> simp [calculate_risk_metrics, h]

/-- C10: the mutual-fund analysis path is taken exactly when the
lower-cased `instrument_type` equals "mutual fund"; every other type
string — including values outside the Stock / Mutual Fund enum — is
dispatched to the stock path (there is no rejection branch), and the
result always echoes the given `instrument_type`. -/
theorem c10_type_dispatch (powf : ℚ → ℚ → ℚ) (sqrtf : ℚ → ℚ) (P : Providers)
    (ty id : String) (inv : ℚ) :
    analyze_instrument powf sqrtf P ty id inv =
      (if ty.toLower = "mutual fund" then analyze_mf powf sqrtf P ty id inv
       else analyze_stock powf sqrtf P ty id inv) ∧
    (analyze_instrument powf sqrtf P ty id inv).instrument_type = ty :=
  ⟨analyze_instrument_branch powf sqrtf P ty id inv,
    analyze_instrument_type powf sqrtf P ty id inv⟩
